import Mathlib

/-!
Verification of `installdist.py` (brbsix/installdist), a pip-like wrapper
that locates a locally built Python package archive, optionally uninstalls a
pre-existing installation and reinstalls the archive.

The Python source is shallowly embedded: pure string manipulation is
translated to structural (kernel-reducible) Lean functions over `List Char`;
the file system, the subprocess running `pip show`, the set of available
executables and the terminal input stream are explicit oracle data threaded
through the embedded functions; Python exceptions become `Except String`
errors carrying the exception text; `sys.exit`, uncaught exceptions and
normal return are the three constructors of `Outcome`.  Unicode-dependent
Python primitives (`str.lower`, `str.capitalize`, the `\d`/`[a-z]` classes of
`distutils.version.LooseVersion`) are modelled on their ASCII behaviour,
which covers every string the program manipulates here.
-/

/-! ## Python string primitives, modelled structurally over `List Char` -/

/-- ASCII model of Python `str.lower` on a single character. -/
def toLowerChar (c : Char) : Char :=
  if 65 ≤ c.toNat ∧ c.toNat ≤ 90 then Char.ofNat (c.toNat + 32) else c

/-- ASCII model of Python `str.upper` on a single character. -/
def toUpperChar (c : Char) : Char :=
  if 97 ≤ c.toNat ∧ c.toNat ≤ 122 then Char.ofNat (c.toNat - 32) else c

/-- Python `str.lower` (ASCII model). -/
def pyLower (s : String) : String := String.mk (s.data.map toLowerChar)

/-- Python `str.capitalize` (ASCII model): first character upper-cased, the
rest lower-cased. -/
def pyCapitalize (s : String) : String :=
  match s.data with
  | [] => ""
  | c :: cs => String.mk (toUpperChar c :: cs.map toLowerChar)

/-- Does `p` occur at the head of `l`? (Python `str.startswith`, on chars.) -/
def chHead : List Char → List Char → Bool
  | [], _ => true
  | _ :: _, [] => false
  | p :: ps, c :: cs => p = c && chHead ps cs

/-- Python `str.startswith`. -/
def strStarts (s pre : String) : Bool := chHead pre.data s.data

/-- Python `str.endswith`. -/
def strEnds (s suf : String) : Bool := chHead suf.data.reverse s.data.reverse

/-- Drop the first `n` characters. -/
def chDrop : Nat → List Char → List Char
  | 0, l => l
  | _, [] => []
  | n + 1, _ :: cs => chDrop n cs

/-- Does the character occur in the list? -/
def chHas (c : Char) : List Char → Bool
  | [] => false
  | d :: ds => c = d || chHas c ds

/-- Code-point lexicographic `<` on character lists (Python string
comparison), written structurally so that it reduces in the kernel. -/
def chLt : List Char → List Char → Bool
  | [], [] => false
  | [], _ :: _ => true
  | _ :: _, [] => false
  | a :: as_, b :: bs =>
    if a < b then true else if b < a then false else chLt as_ bs

/-- Fuel-driven worker for `pySplit`: `acc` is the current piece, reversed.
One unit of fuel is spent per emitted character or separator, so fuel equal
to the input length always suffices. -/
def pySplitGo (sep : List Char) : Nat → List Char → List Char → List (List Char)
  | _, [], acc => [acc.reverse]
  | 0, rest, acc => [(acc.reverse) ++ rest]
  | fuel + 1, c :: cs, acc =>
    if chHead sep (c :: cs) then
      acc.reverse :: pySplitGo sep fuel (chDrop sep.length (c :: cs)) []
    else
      pySplitGo sep fuel cs (c :: acc)

/-- Python `str.split(sep)` for a non-empty separator: non-overlapping
left-to-right splitting, keeping empty pieces, `"".split(sep) = [""]`. -/
def pySplit (s sep : String) : List String :=
  (pySplitGo sep.data s.data.length s.data []).map String.mk

/-- Python `str.splitlines` for text whose only line breaks are `\n`:
split on newlines, with no empty piece after a trailing newline. -/
def pySplitlines (s : String) : List String :=
  let l := pySplit s "\n"
  if l.getLast? = some "" then l.dropLast else l

/-- Python `seq[-1]`, defaulting to `""` on the empty list (the lists this is
applied to are results of `str.split` and are never empty). -/
def lastOf (l : List String) : String := (l.getLast?).getD ""

/-- Python `' '.join(args)`. -/
def joinArgs : List String → String
  | [] => ""
  | x :: xs => xs.foldl (fun a s => a ++ " " ++ s) x

/-- Python `list.remove(x)`: delete the first occurrence. -/
def pyRemoveFirst (x : String) : List String → List String
  | [] => []
  | y :: ys => if y = x then ys else y :: pyRemoveFirst x ys

/-- Association-list lookup (used for tar members and parsed JSON objects). -/
def alookup {α : Type} : List (String × α) → String → Option α
  | [], _ => none
  | (k, v) :: r, key => if k = key then some v else alookup r key

/-! ## `distutils.version.LooseVersion`

`LooseVersion.parse` splits the version string with the regular expression
`(\d+ | [a-z]+ | \.)`: maximal digit runs become `int` components, maximal
lower-case-letter runs become string components, each `.` is discarded, and
any other maximal run of unmatched characters (such as `-`) survives as a
string component.  Comparison is Python list comparison: componentwise, an
`int`/`str` pair raises `TypeError`, and a strict prefix is smaller. -/

/-- One component of a parsed `LooseVersion`. -/
inductive LVC where
  | num (n : Nat)
  | str (s : String)
deriving DecidableEq, Repr

/-- Character class used by `LooseVersion.parse` (ASCII model): digit run,
lower-case run, a dot, or an unmatched ("junk") run. -/
inductive RunKind where
  | dig
  | low
  | dot
  | junk
deriving DecidableEq, Repr

/-- Classify one character for `LooseVersion.parse`. -/
def runKind (c : Char) : RunKind :=
  if 48 ≤ c.toNat ∧ c.toNat ≤ 57 then .dig
  else if 97 ≤ c.toNat ∧ c.toNat ≤ 122 then .low
  else if c = '.' then .dot
  else .junk

/-- Digit run to `Nat` (Python `int` of a decimal string). -/
def natOfDigits (l : List Char) : Nat :=
  l.foldl (fun a c => 10 * a + (c.toNat - 48)) 0

/-- Emit the pending run as zero or one component: dots and the initial
empty run produce nothing. -/
def emitRun (k : RunKind) (run : List Char) : List LVC :=
  match run with
  | [] => []
  | r =>
    match k with
    | .dig => [.num (natOfDigits r)]
    | .low => [.str (String.mk r)]
    | .junk => [.str (String.mk r)]
    | .dot => []

/-- Scanner for `LooseVersion.parse`: `k` is the class of the pending run
`run` (in order). -/
def lvScan : List Char → RunKind → List Char → List LVC
  | [], k, run => emitRun k run
  | c :: cs, k, run =>
    let k' := runKind c
    if k' = k ∧ k ≠ .dot then lvScan cs k (run ++ [c])
    else emitRun k run ++ lvScan cs k' [c]

/-- `LooseVersion(vstring).version`: the parsed component list. -/
def lvParse (s : String) : List LVC := lvScan s.data .dot []

/-- Python comparison of two components: `some` of the `<` result when both
are `int`s or both are `str`s, `none` (a `TypeError`) on a mixed pair.
String order is code-point lexicographic (`chLt`), as in Python. -/
def lvcLt : LVC → LVC → Option Bool
  | .num a, .num b => some (decide (a < b))
  | .str a, .str b => some (chLt a.data b.data)
  | _, _ => none

/-- Python list `<` on component lists: first non-equal pair decides, a
strict prefix is smaller, a mixed-type pair is a `TypeError` (`none`). -/
def pyListLt : List LVC → List LVC → Option Bool
  | [], [] => some false
  | [], _ :: _ => some true
  | _ :: _, [] => some false
  | a :: as_, b :: bs => if a = b then pyListLt as_ bs else lvcLt a b

/-- `LooseVersion.__gt__` via `_cmp`: equality is checked first with list
`==` (which never raises), then list `<`.  `none` is a `TypeError`. -/
def lvGt (a b : List LVC) : Option Bool :=
  if a = b then some false
  else
    match pyListLt a b with
    | none => none
    | some true => some false
    | some false => some true

/-- `>` on `Nat` sort keys (file timestamps never raise). -/
def natGt (a b : Nat) : Option Bool := some (decide (b < a))

/-! ## Paths and the file-system oracle

Paths inside the oracle are stored normalized and absolute; every operation
first resolves its (possibly relative) argument against the working
directory, mirroring what the kernel does for the Python process. -/

/-- `os.path.normpath` on the component list of an absolute path: drop empty
and `.` components, let `..` consume the previous component. -/
def normParts (parts : List String) : List String :=
  parts.foldl
    (fun acc p =>
      if p = "" ∨ p = "." then acc
      else if p = ".." then acc.dropLast
      else acc ++ [p])
    []

/-- `os.path.abspath`: resolve `p` against the working directory `cwd` (an
absolute path) and normalize. -/
def normAbs (cwd p : String) : String :=
  let full := if strStarts p "/" then p else cwd ++ "/" ++ p
  let ps := normParts (pySplit full "/")
  "/" ++ joinWith "/" ps
where
  joinWith (sep : String) : List String → String
    | [] => ""
    | x :: xs => xs.foldl (fun a s => a ++ sep ++ s) x

/-- `os.path.basename`: the part after the last slash. -/
def pyBasename (p : String) : String := lastOf (pySplit p "/")

/-- `os.path.join(a, b)` for at most one leading-slash case: an absolute `b`
wins, otherwise `a` and `b` are glued with exactly one slash (none added
when `a` is empty or already ends in a slash). -/
def osJoin (a b : String) : String :=
  if strStarts b "/" then b
  else (if a = "" then "" else if strEnds a "/" then a else a ++ "/") ++ b

/-- Contents of a regular file, as far as the program inspects them: a
gzipped tar archive is its member list (member path, member text, in archive
order); a wheel is its member-name list together with the parsed JSON object
of its `metadata.json` member (the output of `json.loads`, modelled as an
association list); anything else is opaque. -/
inductive Contents where
  | tar (entries : List (String × String))
  | zip (names : List String) (metaJson : List (String × String))
  | plain
deriving DecidableEq

/-- Per-file oracle data: `readable` is `os.access(·, os.R_OK)`, `ctime` and
`mtime` are `os.path.getctime` and `os.path.getmtime` (the program only ever
reads `ctime`; `mtime` is carried so that statements about modification
times can be made about the same file system). -/
structure FInfo where
  readable : Bool
  ctime : Nat
  mtime : Nat
  contents : Contents
deriving DecidableEq

/-- The file-system oracle: the working directory, the directories and the
regular files (keyed by normalized absolute path). -/
structure FS where
  cwd : String
  dirs : List String
  files : List (String × FInfo)
deriving DecidableEq

/-- `os.path.isdir`. -/
def FS.isdir (fs : FS) (p : String) : Bool := fs.dirs.contains (normAbs fs.cwd p)

/-- The oracle record of the regular file at `p`, if any. -/
def FS.finfo (fs : FS) (p : String) : Option FInfo := alookup fs.files (normAbs fs.cwd p)

/-- `os.path.isfile`. -/
def FS.isfile (fs : FS) (p : String) : Bool := (fs.finfo p).isSome

/-- `os.access(p, os.R_OK)`. -/
def FS.readOk (fs : FS) (p : String) : Bool :=
  match fs.finfo p with
  | some i => i.readable
  | none => false

/-- `os.path.getctime` (files handed to it always exist here). -/
def FS.ctimeOf (fs : FS) (p : String) : Nat :=
  match fs.finfo p with
  | some i => i.ctime
  | none => 0

/-- The entry named `nm` directly inside directory `d` has absolute path
`d ++ "/" ++ nm`; recover `nm` from the absolute path, if it is such an
entry. -/
def childName (d p : String) : Option String :=
  let pre := d ++ "/"
  if strStarts p pre then
    let rest := String.mk (chDrop pre.data.length p.data)
    if rest ≠ "" ∧ ¬ chHas '/' rest.data then some rest else none
  else none

/-- `os.scandir`-style listing of the names directly inside a directory
(file names first, then subdirectory names; the OS order is arbitrary and
nothing proved below depends on it). -/
def FS.listNames (fs : FS) (dir : String) : List String :=
  let d := normAbs fs.cwd dir
  (fs.files.map Prod.fst ++ fs.dirs).filterMap (childName d)

/-- `glob.glob(os.path.join(dirpath, '*' + ext))`: names inside `dirpath`
matching `*ext` (hidden names, starting with a dot, never match `*`),
returned with the directory prefix as written, in OS order. -/
def pyGlobStar (fs : FS) (dirpath ext : String) : List String :=
  (fs.listNames dirpath).filterMap
    (fun nm => if ¬ strStarts nm "." ∧ strEnds nm ext then some (osJoin dirpath nm) else none)

/-! ## Program state: options, effects, outcomes, environment -/

/-- The parsed command-line options (`argparse` destinations), after
`configpackage` has collapsed the one-element `target` list; `pipv` is the
field `checkpip` fills in. -/
structure Options where
  pip2 : Bool
  dryrun : Bool
  newsort : Bool
  package : String
  system : Bool
  verbose : Bool
  wheel : Bool
  target : Option String
  pipv : String
deriving DecidableEq

/-- An observable action of the process, in order: a line printed to the
terminal (`print`), a prompt displayed by `input(prompt)`, or a shell
command handed to `os.system`. -/
inductive Effect where
  | printed (s : String)
  | prompted (s : String)
  | ran (cmd : String)
deriving DecidableEq, Repr

/-- How the run ends: `sys.exit(code)`, an uncaught Python exception
(carrying its text), or a normal return from `Installer.main`. -/
inductive Outcome where
  | exited (code : Nat)
  | raised (msg : String)
  | finished
deriving DecidableEq, Repr

/-- Result of the bounded `process.wait(timeout=5)` on the `pip show | awk`
pipeline: the pipeline finished with an exit status and captured stdout, or
the five-second bound elapsed. -/
inductive SubprocRes where
  | completed (rc : Nat) (out : String)
  | timedOut
deriving DecidableEq

/-- The record `showpackage` assembles from the pipeline output. -/
structure ShowInfo where
  name : String
  version : String
  location : String
deriving DecidableEq, Repr

/-- The process environment: the file system, the executables `shutil.which`
can find, the outcome of the one `pip show` pipeline of a run, and the
terminal input stream (one string per line read; an exhausted list is end of
input, where `input()` raises `EOFError`). -/
structure Env where
  fs : FS
  avail : List String
  showResult : SubprocRes
  inputs : List String
deriving DecidableEq

/-- Read one line from the terminal: `none` is end of input. -/
def readInput : List String → Option String × List String
  | [] => (none, [])
  | s :: r => (some s, r)

/-! ## The embedded program

Each definition mirrors one function of `installdist.py`; error strings
name the Python exception that would propagate. -/

/-- `Installer.getmetapath` for a tar archive: the first member whose path
ends in `/PKG-INFO`, else `AttributeError`. -/
def getmetapathTar (pkgpath : String) (names : List String) : Except String String :=
  match names.find? (fun p => strEnds p "/PKG-INFO") with
  | some p => .ok p
  | none =>
    .error ("AttributeError: Unable to identify metadata file for '"
      ++ pyBasename pkgpath ++ "'")

/-- `Installer.getmetapath` for a zip (wheel) archive: the first member whose
path ends in `.dist-info/metadata.json`, else `AttributeError`. -/
def getmetapathZip (pkgpath : String) (names : List String) : Except String String :=
  match names.find? (fun p => strEnds p ".dist-info/metadata.json") with
  | some p => .ok p
  | none =>
    .error ("AttributeError: Unable to identify metadata file for '"
      ++ pyBasename pkgpath ++ "'")

/-- `Installer.getmetafield(pkgpath, field)`: open the archive by extension,
find its metadata member, and extract the field.  In a tarball the value is
the tail of the first `PKG-INFO` line starting with `field.capitalize() +
': '` (via `line.split(': ')[-1]`); in a wheel it is the entry of the parsed
`metadata.json` object at `field.lower()`.  Every failure — unreadable or
absent archive, no metadata member, missing field or line — is the raise
that the Python code would perform. -/
def getmetafield (fs : FS) (pkgpath field : String) : Except String String :=
  if strEnds pkgpath ".tar.gz" then
    match fs.finfo pkgpath with
    | none => .error ("FileNotFoundError: " ++ pkgpath)
    | some info =>
      match info.contents with
      | .tar entries =>
        match getmetapathTar pkgpath (entries.map Prod.fst) with
        | .error e => .error e
        | .ok mp =>
          let metalines := pySplitlines ((alookup entries mp).getD "")
          match metalines.find? (fun line => strStarts line (pyCapitalize field ++ ": ")) with
          | some line => .ok (lastOf (pySplit line ": "))
          | none =>
            .error ("Exception: Unable to extract field '" ++ field
              ++ "' from package '" ++ pkgpath ++ "'")
      | _ => .error ("ReadError: " ++ pkgpath ++ " is not a tar archive")
  else if strEnds pkgpath ".whl" then
    match fs.finfo pkgpath with
    | none => .error ("FileNotFoundError: " ++ pkgpath)
    | some info =>
      match info.contents with
      | .zip names metaJson =>
        match getmetapathZip pkgpath names with
        | .error e => .error e
        | .ok _ =>
          match alookup metaJson (pyLower field) with
          | some v => .ok v
          | none =>
            .error ("Exception: Unable to extract field '" ++ field
              ++ "' from package '" ++ pkgpath ++ "'")
      | _ => .error ("BadZipFile: " ++ pkgpath ++ " is not a zip archive")
  else
    .error ("Exception: Unable to extract field '" ++ field
      ++ "' from package '" ++ pkgpath ++ "'")

/-- The sort key closure `versionkey` inside `Installer.findpackage`:
`LooseVersion(self.getmetafield(pkgpath, 'version'))` (the `distutils`
module imports fine, so the version-object wrapper is used); a raise inside the
key propagates out of `max`. -/
def versionkey (fs : FS) (pkgpath : String) : Except String (List LVC) :=
  (getmetafield fs pkgpath "version").map lvParse

/-- Python `max(x :: xs, key=k)` worker: `best`/`bkey` hold the current
maximum; a later element replaces it only when its key compares strictly
greater, so the first of equal keys wins. -/
def pyMaxGo {κ : Type} (gt : κ → κ → Option Bool) (key : String → Except String κ) :
    List String → String → κ → Except String String
  | [], best, _ => .ok best
  | y :: ys, best, bkey =>
    match key y with
    | .error e => .error e
    | .ok ky =>
      match gt ky bkey with
      | none => .error "TypeError: unorderable types"
      | some true => pyMaxGo gt key ys y ky
      | some false => pyMaxGo gt key ys best bkey

/-- Python `max(files, key=k)` on a non-empty list, with the comparison
partiality and key exceptions made explicit. -/
def pyMax {κ : Type} (gt : κ → κ → Option Bool) (key : String → Except String κ)
    (x : String) (xs : List String) : Except String String :=
  match key x with
  | .error e => .error e
  | .ok kx => pyMaxGo gt key xs x kx

/-- The extension `Installer.findpackage` globs for. -/
def extOf (o : Options) : String := if o.wheel then ".whl" else ".tar.gz"

/-- The `files` list of `Installer.findpackage`: the glob matches that are
regular, readable files. -/
def candidateFiles (fs : FS) (o : Options) (distpath : Option String) : List String :=
  let dp := distpath.getD "."
  (pyGlobStar fs dp (extOf o)).filter (fun f => fs.isfile f && fs.readOk f)

/-- `Installer.findpackage(distpath)`: `None` for an empty candidate list,
otherwise the maximum by change time (`os.path.getctime`) under `-n`, else
by `versionkey`.  Exceptions escaping `max` escape `findpackage`. -/
def findpackage (fs : FS) (o : Options) (distpath : Option String) :
    Except String (Option String) :=
  match candidateFiles fs o distpath with
  | [] => .ok none
  | x :: xs =>
    if o.newsort then
      (pyMax natGt (fun f => .ok (fs.ctimeOf f)) x xs).map some
    else
      (pyMax lvGt (versionkey fs) x xs).map some

/-- The loop of `detectdistpath` over `searchpaths`. -/
def detectGo (fs : FS) (startpath : String) : List String → Option String
  | [] => none
  | sp :: rest =>
    let testpath := if startpath ≠ "" then osJoin startpath sp else sp
    if fs.isdir testpath && (pyBasename (normAbs fs.cwd testpath) == "dist") then
      some testpath
    else detectGo fs startpath rest

/-- `detectdistpath(startpath)`: the first of `startpath/.`,
`startpath/dist/`, `startpath/../dist/` that is a directory whose absolute
basename is exactly `dist`, else `None`. -/
def detectdistpath (fs : FS) (startpath : String) : Option String :=
  detectGo fs startpath [".", "dist/", "../dist/"]

/-- Outcome of `Installer.configpackage`: a resolved archive path, the
`_fatal` call (message printed, exit 1), or an exception propagating from
`findpackage`. -/
inductive CfgOut where
  | okp (p : String)
  | fatalMsg (m : String)
  | excRaise (e : String)
deriving DecidableEq, Repr

/-- `Installer.configpackage`: an explicit positional target is used iff it
is an existing regular file, with no directory scan; with no target the
`dist` directory is detected and scanned.  A `None` result is `_fatal`. -/
def configpackage (fs : FS) (o : Options) : CfgOut :=
  match o.target with
  | some t => if fs.isfile t then .okp t else .fatalMsg "Unable to determine package to install"
  | none =>
    match findpackage fs o (detectdistpath fs o.package) with
    | .error e => .excRaise e
    | .ok (some p) => .okp p
    | .ok none => .fatalMsg "Unable to determine package to install"

/-- The `args` list of `Installer.installpackage`: `[pipv, 'install',
'--user', pkgpath]`, with `'--user'` removed again when `--system` is
given. -/
def installArgs (o : Options) (pkgpath : String) : List String :=
  let args := [o.pipv, "install", "--user", pkgpath]
  if o.system then pyRemoveFirst "--user" args else args

/-- `Installer.installpackage`: under `--dry-run` print the `DRYRUN` notice
and the exact command line (`print(*args)` separates by single spaces, the
same string `' '.join(args)` that `_execute` would hand to `os.system`);
otherwise run that command. -/
def installpackage (o : Options) (pkgpath : String) : List Effect :=
  if o.dryrun then
    [.printed ("DRYRUN: Installing '" ++ pkgpath ++ "'"),
     .printed (joinArgs (installArgs o pkgpath))]
  else
    [.ran (joinArgs (installArgs o pkgpath))]

/-- `Installer.uninstallpackage`: same dry-run split for `[pipv,
'uninstall', pkgname]`. -/
def uninstallpackage (o : Options) (pkgname pkgver : String) : List Effect :=
  if o.dryrun then
    [.printed ("DRYRUN: Uninstalling " ++ pkgname ++ " " ++ pkgver),
     .printed (joinArgs [o.pipv, "uninstall", pkgname])]
  else
    [.ran (joinArgs [o.pipv, "uninstall", pkgname])]

/-- `Installer.showpackage`: run `pipv show pkgname | awk …` (the pipeline
is abstracted into the environment oracle `showResult`).  A timeout of the
bounded `process.wait(timeout=5)` raises `TimeoutExpired`; a non-zero exit
status of the pipeline (pip not knowing the package, or the awk program
exiting 1 on empty structured output) returns `False`, modelled `none`;
otherwise the `name|version|location` stdout is split into the result
record (fewer than three pieces would be the `IndexError` of `info[2]`). -/
def showpackage (env : Env) (_o : Options) (_pkgname : String) :
    Except String (Option ShowInfo) :=
  match env.showResult with
  | .timedOut => .error "TimeoutExpired: pipeline did not finish in 5 seconds"
  | .completed rc out =>
    if rc ≠ 0 then .ok none
    else
      match pySplit out "|" with
      | n :: v :: l :: _ => .ok (some ⟨n, v, l⟩)
      | _ => .error "IndexError: list index out of range"

/-- `_confirm`: read one line (`none` is end of input, where `input()`
raises `EOFError`) and test `rawinput[0].lower() == 'y'`, an empty line
giving `False` through the caught `IndexError`. -/
def pyConfirm (inp : Option String) : Except String Bool :=
  match inp with
  | none => .error "EOFError"
  | some rawinput =>
    match rawinput.data with
    | [] => .ok false
    | c :: _ => .ok (toLowerChar c == 'y')

/-- The prompt `Installer.promptinstall` displays. -/
def installPrompt (fs : FS) (pkgpath : String) : String :=
  "\n" ++ normAbs fs.cwd pkgpath
    ++ "\nAre you sure you'd like to install the aforementioned package (y/N)? "

/-- The prompt `Installer.promptuninstall` displays. -/
def uninstallPrompt (pkgname pkgver : String) : String :=
  "Are you sure you'd like to uninstall " ++ pkgname ++ " " ++ pkgver ++ " (y/N)? "

/-- The `Name:`/`Version:`/`Location:` block `promptuninstall` prints before
its prompt. -/
def uninstallHdr (r : ShowInfo) : List Effect :=
  [.printed ("Name: " ++ r.name),
   .printed ("Version: " ++ r.version),
   .printed ("Location: " ++ r.location),
   .printed ""]

/-- `Installer.promptinstall`: show the prompt; on a confirming first
character install and return normally, otherwise `sys.exit(1)`; end of
input is the uncaught `EOFError` of `input()`. -/
def promptinstall (env : Env) (o : Options) (pkgpath : String) (inputs : List String) :
    List Effect × Outcome :=
  let prompt := installPrompt env.fs pkgpath
  let (inp, _) := readInput inputs
  match pyConfirm inp with
  | .error e => ([.prompted prompt], .raised e)
  | .ok true => (.prompted prompt :: installpackage o pkgpath, .finished)
  | .ok false => ([.prompted prompt], .exited 1)

/-- `Installer.promptuninstall`: query the installed package; `False` skips
the whole branch; a found record is printed and confirmation requested —
`yes` uninstalls and continues, `no` is `sys.exit(1)`.  The middle component
is `none` when `main` continues to the install prompt. -/
def promptuninstall (env : Env) (o : Options) (pkgname : String) (inputs : List String) :
    List Effect × Option Outcome × List String :=
  match showpackage env o pkgname with
  | .error e => ([], some (.raised e), inputs)
  | .ok none => ([], none, inputs)
  | .ok (some r) =>
    let hdr := uninstallHdr r
    let prompt := uninstallPrompt pkgname r.version
    let (inp, rest) := readInput inputs
    match pyConfirm inp with
    | .error e => (hdr ++ [.prompted prompt], some (.raised e), rest)
    | .ok true => (hdr ++ .prompted prompt :: uninstallpackage o pkgname r.version, none, rest)
    | .ok false => (hdr ++ [.prompted prompt], some (.exited 1), rest)

/-- `Installer.main`, from `checkpip` on (option parsing already done): the
effect trace of the run paired with how it ends.  `checkpip` raises
`FileNotFoundError` when the chosen pip is not on the path; `configpackage`
resolves the archive or is fatal; both metadata reads must succeed or their
exception escapes; a truthy package name triggers the uninstall branch; the
install prompt always follows. -/
def mainRun (env : Env) (o0 : Options) : List Effect × Outcome :=
  let script := if o0.pip2 then "pip2" else "pip3"
  if ¬ env.avail.contains script then
    ([], .raised ("FileNotFoundError: '" ++ script ++ "' not available"))
  else
    let o := {o0 with pipv := script}
    match configpackage env.fs o with
    | .excRaise e => ([], .raised e)
    | .fatalMsg m => ([.printed ("ERROR: " ++ m)], .exited 1)
    | .okp pkgpath =>
      match getmetafield env.fs pkgpath "name" with
      | .error e => ([], .raised e)
      | .ok pkgname =>
        match getmetafield env.fs pkgpath "version" with
        | .error e => ([], .raised e)
        | .ok _pkgversion =>
          if pkgname ≠ "" then
            match promptuninstall env o pkgname env.inputs with
            | (effU, some out, _) => (effU, out)
            | (effU, none, inputs1) =>
              let (effI, outI) := promptinstall env o pkgpath inputs1
              (effU ++ effI, outI)
          else
            promptinstall env o pkgpath env.inputs

/-! ## Definitions drawn from the specification's words

These are stated from the specification, to be compared against the
embedded source functions above. -/

/-- `os.path.getmtime`, the file-modification timestamp.  The program never
reads it; it is part of the file-system oracle so that statements about
modification times refer to the same file system. -/
def FS.mtimeOf (fs : FS) (p : String) : Nat :=
  match fs.finfo p with
  | some i => i.mtime
  | none => 0

/-- The specification's confirmation predicate: true exactly when the first
character of the line, case-insensitively, is `y`. -/
def firstIsY (s : String) : Bool :=
  match s.data with
  | [] => false
  | c :: _ => decide (c = 'y' ∨ c = 'Y')

/-- The ordered candidate directories of the Archive Locator: the starting
directory itself, its `dist` subdirectory, and the `dist` subdirectory of
its parent, as `detectdistpath` spells them. -/
def distSearchList (startpath : String) : List String :=
  [".", "dist/", "../dist/"].map (fun sp => if startpath ≠ "" then osJoin startpath sp else sp)

/-- A candidate directory qualifies when it exists as a directory and its
absolute basename is exactly `dist`. -/
def distQualifies (fs : FS) (t : String) : Bool :=
  fs.isdir t && (pyBasename (normAbs fs.cwd t) == "dist")

/-- Following the specification's words (not the source): the filename's
embedded version token, "the path component between the last `-` and the
extension". -/
def specFilenameToken (ext p : String) : String :=
  let base := pyBasename p
  let stem :=
    if strEnds base ext then String.mk (base.data.take (base.data.length - ext.data.length))
    else base
  lastOf (pySplit stem "-")

/-- Following the specification's words (not the source): pick the candidate
whose filename token is semantically greatest (same version-object
comparison the source uses, applied to the tokens the specification names).
-/
def specFilenameSelect (ext : String) : List String → Option String
  | [] => none
  | x :: xs =>
    (pyMax lvGt (fun f => .ok (lvParse (specFilenameToken ext f))) x xs).toOption

/-! ## Concrete instances used in counterexamples and witnesses -/

/-- A readable tar archive file record. -/
def mkTar (ct mt : Nat) (ents : List (String × String)) : FInfo :=
  ⟨true, ct, mt, .tar ents⟩

/-- Options as parsed with no flags given (after `checkpip` set `pipv`). -/
def baseOpts : Options :=
  ⟨false, false, false, ".", false, false, false, none, "pip3"⟩

/-- `baseOpts` with the `-n` (newest-timestamp) flag. -/
def newOpts : Options := {baseOpts with newsort := true}

/-- `baseOpts` with a positional target. -/
def targetOpts (t : String) : Options := {baseOpts with target := some t}

/-- Two archives whose filename tokens order one way (9.0 over 1.0) while
their metadata versions order the other way (2.0 over 1.0). -/
def fsMetaSwap : FS :=
  ⟨"/home/u/proj", ["/home/u/proj"],
   [("/home/u/proj/a-9.0.tar.gz", mkTar 1 1 [("a-9.0/PKG-INFO", "Name: a\nVersion: 1.0\n")]),
    ("/home/u/proj/b-1.0.tar.gz", mkTar 2 2 [("b-1.0/PKG-INFO", "Name: b\nVersion: 2.0\n")])]⟩

/-- The specification's own example: `pkg-1.0.tar.gz` and `pkg-2.0.tar.gz`
in a `dist` directory, metadata versions matching the filenames. -/
def fsPkgTwo : FS :=
  ⟨"/home/u/proj", ["/home/u/proj", "/home/u/proj/dist"],
   [("/home/u/proj/dist/pkg-1.0.tar.gz",
      mkTar 1 1 [("pkg-1.0/PKG-INFO", "Name: pkg\nVersion: 1.0\n")]),
    ("/home/u/proj/dist/pkg-2.0.tar.gz",
      mkTar 2 2 [("pkg-2.0/PKG-INFO", "Name: pkg\nVersion: 2.0\n")])]⟩

/-- Suffix variants `pkg-2.0-rev` and `pkg-2.0.dev` beside `pkg-2.0`,
metadata versions matching the filenames. -/
def fsSuffixPair : FS :=
  ⟨"/home/u/proj", ["/home/u/proj"],
   [("/home/u/proj/pkg-2.0.tar.gz",
      mkTar 1 1 [("pkg-2.0/PKG-INFO", "Name: pkg\nVersion: 2.0\n")]),
    ("/home/u/proj/pkg-2.0-rev.tar.gz",
      mkTar 2 2 [("pkg-2.0-rev/PKG-INFO", "Name: pkg\nVersion: 2.0-rev\n")]),
    ("/home/u/proj/pkg-2.0.dev.tar.gz",
      mkTar 3 3 [("pkg-2.0.dev/PKG-INFO", "Name: pkg\nVersion: 2.0.dev\n")])]⟩

/-- The specification's beta example: `pkg-1.0`, `pkg-2.0` and
`pkg-2.0-beta`, metadata versions matching the filenames. -/
def fsBeta : FS :=
  ⟨"/home/u/proj", ["/home/u/proj"],
   [("/home/u/proj/pkg-1.0.tar.gz",
      mkTar 1 1 [("pkg-1.0/PKG-INFO", "Name: pkg\nVersion: 1.0\n")]),
    ("/home/u/proj/pkg-2.0.tar.gz",
      mkTar 2 2 [("pkg-2.0/PKG-INFO", "Name: pkg\nVersion: 2.0\n")]),
    ("/home/u/proj/pkg-2.0-beta.tar.gz",
      mkTar 3 3 [("pkg-2.0-beta/PKG-INFO", "Name: pkg\nVersion: 2.0-beta\n")])]⟩

/-- Two archives whose change times and modification times order in opposite
directions: `a` was modified last (mtime 10) but `b`'s inode changed last
(ctime 6). -/
def fsCtime : FS :=
  ⟨"/home/u/proj", ["/home/u/proj"],
   [("/home/u/proj/a.tar.gz", mkTar 5 10 [("a-1.0/PKG-INFO", "Name: a\nVersion: 1.0\n")]),
    ("/home/u/proj/b.tar.gz", mkTar 6 3 [("b-1.0/PKG-INFO", "Name: b\nVersion: 1.0\n")])]⟩

/-- An archive with no `PKG-INFO` member at all. -/
def fsNoMeta : FS :=
  ⟨"/home/u/proj", ["/home/u/proj"],
   [("/home/u/proj/pkg-1.0.tar.gz", mkTar 1 1 [("pkg-1.0/README", "hello")])]⟩

/-- An archive whose `PKG-INFO` lacks the `Name:` field. -/
def fsNoName : FS :=
  ⟨"/home/u/proj", ["/home/u/proj"],
   [("/home/u/proj/pkg-1.0.tar.gz", mkTar 1 1 [("pkg-1.0/PKG-INFO", "Version: 1.0\n")])]⟩

/-- A `dist` directory with no archive in it. -/
def fsEmptyDist : FS :=
  ⟨"/home/u/proj", ["/home/u/proj", "/home/u/proj/dist"], []⟩

/-- Environment: the archive without metadata, pip3 available. -/
def envNoMeta : Env := ⟨fsNoMeta, ["pip3"], .completed 1 "", ["y", "y"]⟩

/-- Environment: the archive without a `Name:` field, pip3 available. -/
def envNoName : Env := ⟨fsNoName, ["pip3"], .completed 1 "", ["y", "y"]⟩

/-- Environment: the two-package `dist`, `pip show` knowing nothing, and a
user who answers `n`. -/
def envDecline : Env := ⟨fsPkgTwo, ["pip3"], .completed 1 "", ["n"]⟩

/-- Environment: `pip show` timing out. -/
def envTimeout : Env := ⟨fsPkgTwo, ["pip3"], .timedOut, []⟩

/-- Environment: `pip show` exiting non-zero (package not installed, or the
awk guard finding empty output). -/
def envNotFound : Env := ⟨fsPkgTwo, ["pip3"], .completed 1 "", []⟩

/-- Environment: the two-package `dist` but an explicit positional target
that does not exist. -/
def envBadTarget : Env := ⟨fsPkgTwo, ["pip3"], .completed 1 "", []⟩

/-! ## Helper lemmas -/

/-- `Char.toNat` is injective. -/
theorem char_toNat_inj {c d : Char} (h : c.toNat = d.toNat) : c = d :=
  Char.ext (UInt32.eq_of_toBitVec_eq (BitVec.eq_of_toNat_eq h))

/-- `Char.ofNat` round-trips on the code points the program manipulates. -/
theorem charOfNat_small : ∀ n, n ≤ 122 → (Char.ofNat n).toNat = n := by decide

/-- Lower-casing a character yields `y` exactly for `y` and `Y`. -/
theorem lowerChar_eq_y (c : Char) :
    (toLowerChar c == 'y') = decide (c = 'y' ∨ c = 'Y') := by
  by_cases h1 : c = 'y'
  · subst h1; decide
  · by_cases h2 : c = 'Y'
    · subst h2; decide
    · have hr : decide (c = 'y' ∨ c = 'Y') = false := by simp [h1, h2]
      rw [hr]
      unfold toLowerChar
      by_cases h3 : 65 ≤ c.toNat ∧ c.toNat ≤ 90
      · rw [if_pos h3]
        apply beq_eq_false_iff_ne.mpr
        intro he
        have ht : (Char.ofNat (c.toNat + 32)).toNat = Char.toNat 'y' := congrArg Char.toNat he
        rw [charOfNat_small (c.toNat + 32) (by omega)] at ht
        have h89 : c.toNat = Char.toNat 'Y' := by
          have : Char.toNat 'y' = 121 := by decide
          have : c.toNat + 32 = 121 := by omega
          have hY : Char.toNat 'Y' = 89 := by decide
          omega
        exact h2 (char_toNat_inj h89)
      · rw [if_neg h3]
        exact beq_eq_false_iff_ne.mpr h1

/-- Writing back the `pipv` a record already carries changes nothing. -/
theorem opts_pipv_eta (o : Options) {s : String} (h : o.pipv = s) :
    ({o with pipv := s} : Options) = o := by
  cases o
  subst h
  rfl

/-- `lvGt` never ranks a key above itself. -/
theorem lvGt_self (k : List LVC) : lvGt k k = some false := by
  simp [lvGt]

/-- Code-point comparison is asymmetric on distinct lists. -/
theorem chLt_asymm : ∀ a b : List Char, chLt a b = false → a ≠ b → chLt b a = true := by
  intro a
  induction a with
  | nil =>
    intro b h hne
    cases b with
    | nil => exact absurd rfl hne
    | cons c cs => simp [chLt] at h
  | cons x xs ih =>
    intro b h hne
    cases b with
    | nil => rfl
    | cons y ys =>
      rw [chLt] at h
      rw [chLt]
      by_cases hxy : x < y
      · rw [if_pos hxy] at h
        cases h
      · rw [if_neg hxy] at h
        by_cases hyx : y < x
        · rw [if_pos hyx]
        · rw [if_neg hyx] at h
          rw [if_neg hyx, if_neg hxy]
          have hxey : x = y := le_antisymm (not_lt.mp hyx) (not_lt.mp hxy)
          exact ih ys h (fun h2 => hne (by rw [hxey, h2]))

/-- Python list `<` is asymmetric on comparable, distinct lists: if `a < b`
is a defined `False` and the lists differ, then `b < a` is `True`. -/
theorem pyListLt_asymm :
    ∀ a b : List LVC, pyListLt a b = some false → a ≠ b → pyListLt b a = some true := by
  intro a
  induction a with
  | nil =>
    intro b h hne
    cases b with
    | nil => exact absurd rfl hne
    | cons y ys => simp [pyListLt] at h
  | cons x xs ih =>
    intro b h hne
    cases b with
    | nil => simp [pyListLt]
    | cons y ys =>
      by_cases hxy : x = y
      · subst hxy
        rw [pyListLt, if_pos rfl] at h
        rw [pyListLt, if_pos rfl]
        exact ih ys h (fun he => hne (by rw [he]))
      · rw [pyListLt, if_neg hxy] at h
        rw [pyListLt, if_neg (Ne.symm hxy)]
        cases x with
        | num n =>
          cases y with
          | num m =>
            simp only [lvcLt] at h ⊢
            have h1 : decide (n < m) = false := Option.some.inj h
            have h2 : ¬ n < m := of_decide_eq_false h1
            have hnm : n ≠ m := fun he => hxy (by rw [he])
            rw [decide_eq_true (by omega : m < n)]
          | str t => simp [lvcLt] at h
        | str s =>
          cases y with
          | num m => simp [lvcLt] at h
          | str t =>
            simp only [lvcLt] at h ⊢
            have h1 : chLt s.data t.data = false := Option.some.inj h
            have hst : s ≠ t := fun he => hxy (by rw [he])
            have hd : s.data ≠ t.data := fun he => hst (String.ext he)
            rw [chLt_asymm s.data t.data h1 hd]

/-- A strictly greater `LooseVersion` is not also strictly smaller. -/
theorem lvGt_asymm {a b : List LVC} (h : lvGt a b = some true) :
    lvGt b a = some false := by
  unfold lvGt at h ⊢
  by_cases he : a = b
  · simp [he] at h
  · rw [if_neg he] at h
    rw [if_neg (Ne.symm he)]
    rcases hlt : pyListLt a b with _ | b'
    · rw [hlt] at h; simp at h
    · rw [hlt] at h
      cases b' with
      | true => simp at h
      | false => rw [pyListLt_asymm a b hlt he]

/-- Running `max` over elements all drawn from `files`, with `f` the strict
maximum by `gt` of the `v`-keys: the running best is only ever replaced by a
strictly greater key, so `f` comes out.  `best` is the current best, `v
best` its key; every element still to come is in `files`, and either the
best is already `f` or `f` is still to come. -/
theorem pyMaxGo_sel {κ : Type} (gt : κ → κ → Option Bool) (key : String → Except String κ)
    (v : String → κ) (f : String) (files : List String)
    (hkey : ∀ g ∈ files, key g = .ok (v g))
    (hcomp : ∀ g ∈ files, ∀ g' ∈ files, gt (v g) (v g') ≠ none)
    (hmax : ∀ g ∈ files, g ≠ f → gt (v f) (v g) = some true ∧ gt (v g) (v f) = some false)
    (hrefl : gt (v f) (v f) = some false) :
    ∀ ys best, (∀ y ∈ ys, y ∈ files) → best ∈ files → (best = f ∨ f ∈ ys) →
      pyMaxGo gt key ys best (v best) = .ok f := by
  intro ys
  induction ys with
  | nil =>
    intro best _ _ hinv
    rcases hinv with hbf | hmem
    · rw [hbf, pyMaxGo]
    · cases hmem
  | cons y ys ih =>
    intro best hys hbest hinv
    have hyf : y ∈ files := hys y (List.mem_cons_self y ys)
    have hrest : ∀ z ∈ ys, z ∈ files := fun z hz => hys z (List.mem_cons_of_mem y hz)
    by_cases hy : y = f
    · by_cases hbf : best = f
      · simp only [pyMaxGo, hkey y hyf]
        simp only [hy, hbf, hrefl]
        exact ih f hrest (hbf ▸ hbest) (Or.inl rfl)
      · simp only [pyMaxGo, hkey y hyf]
        simp only [hy, (hmax best hbest hbf).1]
        exact ih f hrest (hy ▸ hyf) (Or.inl rfl)
    · have hfys : best = f ∨ f ∈ ys := by
        rcases hinv with h | h
        · exact Or.inl h
        · rcases List.mem_cons.mp h with h' | h'
          · exact absurd h'.symm hy
          · exact Or.inr h'
      by_cases hbf : best = f
      · simp only [pyMaxGo, hkey y hyf]
        simp only [hbf, (hmax y hyf hy).2]
        exact ih f hrest (hbf ▸ hbest) (Or.inl rfl)
      · have hf2 : f ∈ ys := by
          rcases hfys with h | h
          · exact absurd h hbf
          · exact h
        rcases hb : gt (v y) (v best) with _ | b
        · exact absurd hb (hcomp y hyf best hbest)
        · cases b with
          | true =>
            simp only [pyMaxGo, hkey y hyf, hb]
            exact ih y hrest hyf (Or.inr hf2)
          | false =>
            simp only [pyMaxGo, hkey y hyf, hb]
            exact ih best hrest hbest (Or.inr hf2)

/-- `max(files, key)` returns the strict maximum `f` of the keys. -/
theorem pyMax_sel {κ : Type} (gt : κ → κ → Option Bool) (key : String → Except String κ)
    (v : String → κ) (f x : String) (xs : List String)
    (hkey : ∀ g ∈ x :: xs, key g = .ok (v g))
    (hcomp : ∀ g ∈ x :: xs, ∀ g' ∈ x :: xs, gt (v g) (v g') ≠ none)
    (hmax : ∀ g ∈ x :: xs, g ≠ f → gt (v f) (v g) = some true ∧ gt (v g) (v f) = some false)
    (hrefl : gt (v f) (v f) = some false)
    (hmem : f ∈ x :: xs) :
    pyMax gt key x xs = .ok f := by
  rw [pyMax, hkey x (List.mem_cons_self x xs)]
  apply pyMaxGo_sel gt key v f (x :: xs) hkey hcomp hmax hrefl xs x
    (fun y hy => List.mem_cons_of_mem x hy) (List.mem_cons_self x xs)
  rcases List.mem_cons.mp hmem with h | h
  · exact Or.inl h.symm
  · exact Or.inr h

/-- A prefix of `l` is a prefix of `l ++ m`. -/
theorem chHead_append (p l m : List Char) (h : chHead p l = true) :
    chHead p (l ++ m) = true := by
  induction p generalizing l with
  | nil => rfl
  | cons c cs ih =>
    cases l with
    | nil => simp [chHead] at h
    | cons d ds =>
      rw [chHead, Bool.and_eq_true] at h
      rw [List.cons_append, chHead, Bool.and_eq_true]
      exact ⟨h.1, ih ds h.2⟩

/-- A suffix of `b` is a suffix of `a ++ b`. -/
theorem strEnds_concat (a b suf : String) (h : strEnds b suf = true) :
    strEnds (a ++ b) suf = true := by
  rw [strEnds, String.data_append, List.reverse_append]
  exact chHead_append _ _ _ h

/-- `os.path.join` keeps the file-name part at the end, so a suffix of the
name is a suffix of the joined path. -/
theorem osJoin_ends (dp nm ext : String) (h : strEnds nm ext = true) :
    strEnds (osJoin dp nm) ext = true := by
  rw [osJoin]
  by_cases h1 : strStarts nm "/" = true
  · rw [if_pos h1]; exact h
  · rw [if_neg h1]; exact strEnds_concat _ _ _ h

/-- Everything `findpackage` considers matches the configured extension, is
a regular file, and is readable. -/
theorem mem_candidateFiles (fs : FS) (o : Options) (dp : Option String) (f : String)
    (h : f ∈ candidateFiles fs o dp) :
    strEnds f (extOf o) = true ∧ fs.isfile f = true ∧ fs.readOk f = true := by
  rw [candidateFiles, List.mem_filter] at h
  obtain ⟨hg, hp⟩ := h
  rw [Bool.and_eq_true] at hp
  refine ⟨?_, hp.1, hp.2⟩
  rw [pyGlobStar, List.mem_filterMap] at hg
  obtain ⟨nm, _, hnm⟩ := hg
  by_cases hc : (¬ strStarts nm "." = true ∧ strEnds nm (extOf o) = true)
  · rw [if_pos hc] at hnm
    cases hnm
    exact osJoin_ends _ _ _ hc.2
  · rw [if_neg hc] at hnm
    cases hnm

/-- The loop of `detectdistpath` is `List.find?` of the qualifying predicate
over the joined candidate directories. -/
theorem detectGo_eq_find (fs : FS) (sp : String) (l : List String) :
    detectGo fs sp l =
      (l.map (fun s => if sp ≠ "" then osJoin sp s else s)).find? (distQualifies fs) := by
  induction l with
  | nil => rfl
  | cons a rest ih =>
    rw [detectGo, List.map_cons, List.find?]
    by_cases h : distQualifies fs (if sp ≠ "" then osJoin sp a else a) = true
    · rw [h]
      rw [distQualifies] at h
      rw [h]
      simp
    · rw [Bool.not_eq_true] at h
      rw [h]
      rw [distQualifies] at h
      rw [h, ih]
      simp

/-! ## Claim C6 -/

/-- Claim C6, counterexample: at end of the input stream `_confirm` does not
return a negative confirmation — `input()` raises `EOFError`, which nothing
catches. -/
theorem c6_counterexample :
    pyConfirm none = .error "EOFError" ∧ pyConfirm none ≠ .ok false :=
  ⟨rfl, by simp [pyConfirm]⟩

/-- Claim C6 as amended: `_confirm` returns true exactly when the first
character of the read line, case-insensitively, is `y` (so `y`, `Y`, `yes`
give true and the empty line and `n` give false), while end of the input
stream raises `EOFError` instead of acting as a negative confirmation. -/
theorem c6_amended_thm :
    (∀ s : String, pyConfirm (some s) = .ok (firstIsY s)) ∧
    pyConfirm none = .error "EOFError" ∧
    firstIsY "" = false ∧ firstIsY "y" = true ∧ firstIsY "Y" = true ∧
    firstIsY "yes" = true ∧ firstIsY "n" = false := by
  refine ⟨?_, rfl, by decide, by decide, by decide, by decide, by decide⟩
  intro s
  cases hs : s.data with
  | nil => simp [pyConfirm, firstIsY, hs]
  | cons c cs =>
    simp only [pyConfirm, firstIsY, hs]
    rw [lowerChar_eq_y]

/-! ## Claim C7 -/

/-- Claim C7 (confirmed): with the dry-run flag set, neither executor runs
any shell command, and the command line each prints is character-for-
character the one (`pip` variant, subcommand, `--user` unless `--system`,
path or name) that the non-dry-run branch hands to `os.system`.  The one
hypothesis rules out the degenerate pip executable name `--user`, which
`args.remove` would otherwise delete. -/
theorem c7_dryrun_exact (o : Options) (p n v : String) (hpv : o.pipv ≠ "--user") :
    installpackage {o with dryrun := true} p =
        [.printed ("DRYRUN: Installing '" ++ p ++ "'"),
         .printed (joinArgs (installArgs o p))] ∧
    installpackage {o with dryrun := false} p = [.ran (joinArgs (installArgs o p))] ∧
    (∀ e ∈ installpackage {o with dryrun := true} p, ∀ c, e ≠ .ran c) ∧
    installArgs o p =
        (if o.system then [o.pipv, "install", p] else [o.pipv, "install", "--user", p]) ∧
    uninstallpackage {o with dryrun := true} n v =
        [.printed ("DRYRUN: Uninstalling " ++ n ++ " " ++ v),
         .printed (joinArgs [o.pipv, "uninstall", n])] ∧
    uninstallpackage {o with dryrun := false} n v =
        [.ran (joinArgs [o.pipv, "uninstall", n])] ∧
    (∀ e ∈ uninstallpackage {o with dryrun := true} n v, ∀ c, e ≠ .ran c) := by
  obtain ⟨p2, dr, ns, pk, sys, vb, wh, tg, pv⟩ := o
  refine ⟨rfl, rfl, ?_, ?_, rfl, rfl, ?_⟩
  · intro e he c
    fin_cases he <;> simp
  · cases sys with
    | false => rfl
    | true =>
      show pyRemoveFirst "--user" [pv, "install", "--user", p] = [pv, "install", p]
      rw [pyRemoveFirst, if_neg hpv]
      simp [pyRemoveFirst]
  · intro e he c
    fin_cases he <;> simp

/-- Claim C7, witness at the no-flags options and a concrete path. -/
theorem c7_witness :
    installpackage {baseOpts with dryrun := true} "./dist/pkg-2.0.tar.gz" =
      [.printed ("DRYRUN: Installing '" ++ "./dist/pkg-2.0.tar.gz" ++ "'"),
       .printed (joinArgs (installArgs baseOpts "./dist/pkg-2.0.tar.gz"))] :=
  (c7_dryrun_exact baseOpts "./dist/pkg-2.0.tar.gz" "pkg" "2.0" (by decide)).1

/-! ## Claim C3 -/

/-- Claim C3, counterexample: a timeout of the bounded subprocess wait does
not yield the "not found" outcome — `subprocess.TimeoutExpired` propagates
out of `showpackage` uncaught. -/
theorem c3_counterexample :
    showpackage envTimeout baseOpts "pkg" =
        .error "TimeoutExpired: pipeline did not finish in 5 seconds" ∧
    showpackage envTimeout baseOpts "pkg" ≠ .ok none :=
  ⟨rfl, by simp [showpackage, envTimeout]⟩

/-- Claim C3 as amended: when the external manager reports no such package
— a non-zero exit status of the `pip show | awk` pipeline, which is also how
empty structured output surfaces, since the awk guard exits 1 on it — the
query returns the explicit "not found" value `False` rather than raising;
but a timeout of the bounded wait raises `TimeoutExpired`, which propagates
as an error instead of being treated as "not found". -/
theorem c3_amended_thm :
    (∀ (env : Env) (o : Options) (nm : String) (rc : Nat) (out : String),
       env.showResult = .completed rc out → rc ≠ 0 → showpackage env o nm = .ok none) ∧
    (∀ (env : Env) (o : Options) (nm : String), env.showResult = .timedOut →
       showpackage env o nm = .error "TimeoutExpired: pipeline did not finish in 5 seconds") := by
  constructor
  · intro env o nm rc out hsr hrc
    rw [showpackage, hsr]
    simp [hrc]
  · intro env o nm hsr
    rw [showpackage, hsr]

/-- Claim C3, witness: a pipeline exiting 1 yields the "not found" value. -/
theorem c3_witness : showpackage envNotFound baseOpts "pkg" = .ok none :=
  c3_amended_thm.1 envNotFound baseOpts "pkg" 1 "" rfl (by decide)

/-! ## Claim C10 -/

/-- With a positional target that is not an existing regular file,
`configpackage` is `_fatal` — whatever else the file system holds. -/
theorem configpackage_target_missing (fs : FS) (o : Options) (t : String)
    (ht : o.target = some t) (hf : fs.isfile t = false) :
    configpackage fs o = .fatalMsg "Unable to determine package to install" := by
  rw [configpackage, ht]
  simp [hf]

/-- Claim C10 (confirmed): an explicit positional target that is not an
existing regular file is fatal — the error is printed and the process exits
with status 1 — and no directory search happens: the file system is
arbitrary in the first and third parts, so a well-stocked `dist` directory
changes nothing; an existing target is taken as-is; the scanning branch of
`configpackage` is reached only with no target at all (its `match` on
`o.target` consults `findpackage` only in the `none` arm). -/
theorem c10_target_fatal :
    (∀ (fs : FS) (o : Options) (t : String), o.target = some t → fs.isfile t = false →
       configpackage fs o = .fatalMsg "Unable to determine package to install") ∧
    (∀ (fs : FS) (o : Options) (t : String), o.target = some t → fs.isfile t = true →
       configpackage fs o = .okp t) ∧
    (∀ (env : Env) (o : Options) (t : String),
       o.pipv = (if o.pip2 then "pip2" else "pip3") →
       env.avail.contains o.pipv = true →
       o.target = some t → env.fs.isfile t = false →
       mainRun env o = ([.printed "ERROR: Unable to determine package to install"], .exited 1)) := by
  refine ⟨configpackage_target_missing, ?_, ?_⟩
  · intro fs o t ht hf
    rw [configpackage, ht]
    simp [hf]
  · intro env o t hpv hav ht hf
    have hav' : env.avail.contains (if o.pip2 then "pip2" else "pip3") = true := hpv ▸ hav
    have he : ({o with pipv := if o.pip2 then "pip2" else "pip3"} : Options) = o :=
      opts_pipv_eta o hpv
    rw [mainRun]
    simp only [hav', not_true_eq_false, Bool.false_eq_true, if_false, he,
      configpackage_target_missing env.fs o t ht hf]
    rfl

/-- Claim C10, witness: the `dist` directory holds two perfectly good
archives, yet the bad explicit target is fatal with the error printed and
exit status 1. -/
theorem c10_witness :
    mainRun envBadTarget (targetOpts "./nope.tar.gz") =
      ([.printed "ERROR: Unable to determine package to install"], .exited 1) :=
  c10_target_fatal.2.2 envBadTarget (targetOpts "./nope.tar.gz") "./nope.tar.gz"
    rfl (by decide) rfl (by decide)

/-! ## Claim C1 -/

/-- Claim C1, counterexample: with two archives whose filename tokens order
one way (9.0 over 1.0) and whose archive-metadata versions order the other
way (2.0 over 1.0), `findpackage` follows the metadata and returns
`b-1.0.tar.gz`, while the specification's filename-token rule picks
`a-9.0.tar.gz`: the selector does not parse filename tokens. -/
theorem c1_counterexample :
    findpackage fsMetaSwap baseOpts (some ".") = .ok (some "./b-1.0.tar.gz") ∧
    specFilenameSelect ".tar.gz" (candidateFiles fsMetaSwap baseOpts (some ".")) =
      some "./a-9.0.tar.gz" ∧
    ("./b-1.0.tar.gz" : String) ≠ "./a-9.0.tar.gz" :=
  ⟨rfl, rfl, by decide⟩

/-- Claim C1 as amended: without the `-n` flag the selector determines each
candidate's version by extracting the `version` field from the archive's
embedded metadata (not from the filename), wraps it in
`distutils.version.LooseVersion`, and returns the candidate whose version is
strictly greatest, whenever all those versions are pairwise comparable; in
particular, given exactly `pkg-1.0.tar.gz` and `pkg-2.0.tar.gz` with
matching metadata versions it returns `pkg-2.0.tar.gz` (the witness). -/
theorem c1_amended_thm (fs : FS) (o : Options) (dp : Option String)
    (v : String → String) (f : String) :
    o.newsort = false →
    (∀ g ∈ candidateFiles fs o dp, getmetafield fs g "version" = .ok (v g)) →
    (∀ g ∈ candidateFiles fs o dp, ∀ g' ∈ candidateFiles fs o dp,
        lvGt (lvParse (v g)) (lvParse (v g')) ≠ none) →
    (∀ g ∈ candidateFiles fs o dp, g ≠ f →
        lvGt (lvParse (v f)) (lvParse (v g)) = some true) →
    f ∈ candidateFiles fs o dp →
    findpackage fs o dp = .ok (some f) := by
  intro hns hkey hcomp hmax hmem
  rcases hcf : candidateFiles fs o dp with _ | ⟨x, xs⟩
  · rw [hcf] at hmem; cases hmem
  · rw [hcf] at hkey hcomp hmax hmem
    simp only [findpackage, hcf, hns]
    rw [if_neg (by simp : ¬ (false = true))]
    have hsel := pyMax_sel lvGt (versionkey fs) (fun g => lvParse (v g)) f x xs
      (fun g hg => by rw [versionkey, hkey g hg]; rfl)
      (fun g hg g' hg' => hcomp g hg g' hg')
      (fun g hg hgf => ⟨hmax g hg hgf, lvGt_asymm (hmax g hg hgf)⟩)
      (lvGt_self _) hmem
    rw [hsel]
    rfl

/-- Claim C1, witness: the specification's own two-file example, metadata
versions matching the filenames. -/
theorem c1_witness :
    findpackage fsPkgTwo baseOpts (detectdistpath fsPkgTwo ".") =
      .ok (some "./dist/pkg-2.0.tar.gz") :=
  c1_amended_thm fsPkgTwo baseOpts (detectdistpath fsPkgTwo ".")
    (fun g => if g = "./dist/pkg-2.0.tar.gz" then "2.0" else "1.0")
    "./dist/pkg-2.0.tar.gz"
    rfl
    (by intro g hg; fin_cases hg <;> rfl)
    (by intro g hg g' hg'; fin_cases hg <;> fin_cases hg' <;> decide)
    (by intro g hg hgf; fin_cases hg <;> simp_all <;> decide)
    (by decide)

/-! ## Claim C4 -/

/-- Claim C4, counterexample: beside `pkg-2.0.tar.gz` both the `-rev` and
the `.dev` variants are present (metadata versions matching the filename
tokens).  The claimed fixed priority order checks `-rev` first, so it would
return `pkg-2.0-rev.tar.gz`; the code has no such check and its
`LooseVersion` maximum returns `pkg-2.0.dev.tar.gz` (component list
`[2, 0, "dev"]` beats `[2, 0, "-", "rev"]` at the third slot, `"-" < "d"`).
-/
theorem c4_counterexample :
    candidateFiles fsSuffixPair baseOpts (some ".") =
      ["./pkg-2.0.tar.gz", "./pkg-2.0-rev.tar.gz", "./pkg-2.0.dev.tar.gz"] ∧
    findpackage fsSuffixPair baseOpts (some ".") = .ok (some "./pkg-2.0.dev.tar.gz") ∧
    ("./pkg-2.0.dev.tar.gz" : String) ≠ "./pkg-2.0-rev.tar.gz" :=
  ⟨rfl, rfl, by decide⟩

/-- Claim C4 as amended: the code has no suffix-priority list; it simply
maximizes the `LooseVersion` of each archive's metadata version.  A
suffix-extended version such as `2.0-beta` parses to a component list that
strictly extends that of `2.0`, and Python treats a strict prefix as
smaller, so with `pkg-1.0`, `pkg-2.0` and `pkg-2.0-beta` present (metadata
matching the filenames) the beta variant is still returned; between two
suffixed variants plain component comparison decides, not the listed
order. -/
theorem c4_amended_thm :
    findpackage fsBeta baseOpts (some ".") = .ok (some "./pkg-2.0-beta.tar.gz") ∧
    lvGt (lvParse "2.0-beta") (lvParse "2.0") = some true ∧
    lvGt (lvParse "2.0.dev") (lvParse "2.0-rev") = some true :=
  ⟨rfl, by decide, by decide⟩

/-! ## Claim C5 -/

/-- Claim C5, counterexample: with `-n` the selector uses
`os.path.getctime`, not the modification time — here `b.tar.gz` has the
later change time but the strictly smaller modification time, and is
returned anyway. -/
theorem c5_counterexample :
    candidateFiles fsCtime newOpts (some ".") = ["./a.tar.gz", "./b.tar.gz"] ∧
    findpackage fsCtime newOpts (some ".") = .ok (some "./b.tar.gz") ∧
    fsCtime.mtimeOf "./b.tar.gz" < fsCtime.mtimeOf "./a.tar.gz" :=
  ⟨rfl, rfl, by decide⟩

/-- Claim C5 as amended: with `-n` the selector returns the candidate with
the strictly greatest change timestamp (`os.path.getctime`), regardless of
version tokens — and regardless of modification times when the two orders
disagree. -/
theorem c5_amended_thm (fs : FS) (o : Options) (dp : Option String) (f : String) :
    o.newsort = true →
    (∀ g ∈ candidateFiles fs o dp, g ≠ f → fs.ctimeOf g < fs.ctimeOf f) →
    f ∈ candidateFiles fs o dp →
    findpackage fs o dp = .ok (some f) := by
  intro hns hmax hmem
  rcases hcf : candidateFiles fs o dp with _ | ⟨x, xs⟩
  · rw [hcf] at hmem; cases hmem
  · rw [hcf] at hmax hmem
    simp only [findpackage, hcf, hns, if_true]
    have hsel := pyMax_sel natGt (fun g => .ok (fs.ctimeOf g)) (fun g => fs.ctimeOf g) f x xs
      (fun g hg => rfl)
      (fun g hg g' hg' => by simp [natGt])
      (fun g hg hgf =>
        ⟨by rw [natGt, decide_eq_true (hmax g hg hgf)],
         by rw [natGt, decide_eq_false (Nat.lt_asymm (hmax g hg hgf))]⟩)
      (by simp [natGt])
      hmem
    rw [hsel]
    rfl

/-- Claim C5, witness: the change-time maximum is returned. -/
theorem c5_witness : findpackage fsCtime newOpts (some ".") = .ok (some "./b.tar.gz") :=
  c5_amended_thm fsCtime newOpts (some ".") "./b.tar.gz" rfl
    (by
      intro g hg hgf
      rw [(rfl : candidateFiles fsCtime newOpts (some ".") = ["./a.tar.gz", "./b.tar.gz"])] at hg
      fin_cases hg
      · decide
      · exact absurd rfl hgf)
    (by decide)

/-! ## Claim C8 -/

/-- Claim C8 (confirmed): the locator checks, in order, the starting
directory itself, its `dist` subdirectory and the `dist` subdirectory of its
parent, resolving to the first that is a directory whose absolute basename
is exactly `dist` (`List.find?` over `distSearchList`); when none qualifies
`findpackage` falls back to the current directory; every file it then
considers ends in the configured extension and is a regular, readable file;
and when no candidate exists the result is empty and `configpackage` is
fatal. -/
theorem c8_locator :
    (∀ (fs : FS) (sp : String),
       detectdistpath fs sp = (distSearchList sp).find? (distQualifies fs)) ∧
    (∀ (fs : FS) (o : Options), findpackage fs o none = findpackage fs o (some ".")) ∧
    (∀ (fs : FS) (o : Options) (dp : Option String) (f : String),
       f ∈ candidateFiles fs o dp →
       strEnds f (extOf o) = true ∧ fs.isfile f = true ∧ fs.readOk f = true) ∧
    (∀ (fs : FS) (o : Options) (dp : Option String),
       candidateFiles fs o dp = [] → findpackage fs o dp = .ok none) ∧
    (∀ (fs : FS) (o : Options), o.target = none →
       candidateFiles fs o (detectdistpath fs o.package) = [] →
       configpackage fs o = .fatalMsg "Unable to determine package to install") := by
  refine ⟨?_, ?_, mem_candidateFiles, ?_, ?_⟩
  · intro fs sp
    rw [detectdistpath, distSearchList, detectGo_eq_find]
  · intro fs o
    rfl
  · intro fs o dp hcf
    simp [findpackage, hcf]
  · intro fs o ht hcf
    rw [configpackage, ht]
    simp [findpackage, hcf]

/-- Claim C8, witness: an existing but empty `dist` directory — detected,
scanned, no candidate, fatal. -/
theorem c8_witness :
    configpackage fsEmptyDist baseOpts = .fatalMsg "Unable to determine package to install" :=
  c8_locator.2.2.2.2 fsEmptyDist baseOpts rfl rfl

/-! ## Claim C2 -/

/-- Claim C2, counterexample: for an archive with no manifest entry the
metadata read raises, nothing in `Installer.main` catches it, and the run
terminates with the exception before any prompt — no filename-derived
fallback name, no install confirmation. -/
theorem c2_counterexample :
    getmetafield fsNoMeta "./pkg-1.0.tar.gz" "name" =
      .error "AttributeError: Unable to identify metadata file for 'pkg-1.0.tar.gz'" ∧
    mainRun envNoMeta (targetOpts "./pkg-1.0.tar.gz") =
      ([], .raised "AttributeError: Unable to identify metadata file for 'pkg-1.0.tar.gz'") :=
  ⟨rfl, rfl⟩

/-- Claim C2 as amended: when metadata extraction fails for the resolved
archive (missing manifest entry or missing field), the exception propagates
out of the orchestrator uncaught: the run terminates there with no effect at
all — the installed-package query, the uninstall branch and the install
confirmation are all unreached, and no filename-derived package name is
substituted. -/
theorem c2_amended_thm (env : Env) (o : Options) (p e : String) :
    o.pipv = (if o.pip2 then "pip2" else "pip3") →
    env.avail.contains o.pipv = true →
    configpackage env.fs o = .okp p →
    getmetafield env.fs p "name" = .error e →
    mainRun env o = ([], .raised e) := by
  intro hpv hav hcfg hname
  have hav' : env.avail.contains (if o.pip2 then "pip2" else "pip3") = true := hpv ▸ hav
  have he : ({o with pipv := if o.pip2 then "pip2" else "pip3"} : Options) = o :=
    opts_pipv_eta o hpv
  rw [mainRun]
  simp only [hav', not_true_eq_false, Bool.false_eq_true, if_false, he, hcfg, hname]

/-- Claim C2, witness: an archive whose `PKG-INFO` lacks the `Name:` field —
the field-missing exception ends the run before any prompt. -/
theorem c2_witness :
    mainRun envNoName (targetOpts "./pkg-1.0.tar.gz") =
      ([], .raised "Exception: Unable to extract field 'name' from package './pkg-1.0.tar.gz'") :=
  c2_amended_thm envNoName (targetOpts "./pkg-1.0.tar.gz") "./pkg-1.0.tar.gz"
    "Exception: Unable to extract field 'name' from package './pkg-1.0.tar.gz'"
    rfl (by decide) rfl rfl

/-! ## Claim C9 -/

/-- Claim C9 (confirmed): whenever a confirmation prompt — uninstall or
install — is answered with a line that does not confirm (first character not
`y`/`Y`, in particular the empty line), the run ends right there in
`sys.exit(1)`: the effect trace closes with the declined prompt, so no
install or uninstall command runs after it.  The three parts cover the
install prompt with no installed package found, the uninstall prompt
declined, and an accepted uninstall followed by a declined install. -/
theorem c9_decline_aborts (env : Env) (o : Options) (p n : String) :
    o.pipv = (if o.pip2 then "pip2" else "pip3") →
    env.avail.contains o.pipv = true →
    configpackage env.fs o = .okp p →
    getmetafield env.fs p "name" = .ok n →
    (∃ v, getmetafield env.fs p "version" = .ok v) →
    n ≠ "" →
    ((∀ s rest, showpackage env o n = .ok none → env.inputs = s :: rest →
        pyConfirm (some s) = .ok false →
        mainRun env o = ([.prompted (installPrompt env.fs p)], .exited 1)) ∧
     (∀ r s rest, showpackage env o n = .ok (some r) → env.inputs = s :: rest →
        pyConfirm (some s) = .ok false →
        mainRun env o =
          (uninstallHdr r ++ [.prompted (uninstallPrompt n r.version)], .exited 1)) ∧
     (∀ r s1 s2 rest, showpackage env o n = .ok (some r) → env.inputs = s1 :: s2 :: rest →
        pyConfirm (some s1) = .ok true → pyConfirm (some s2) = .ok false →
        mainRun env o =
          ((uninstallHdr r ++ .prompted (uninstallPrompt n r.version) ::
              uninstallpackage o n r.version) ++ [.prompted (installPrompt env.fs p)],
           .exited 1))) := by
  intro hpv hav hcfg hname hver hn
  obtain ⟨v, hv⟩ := hver
  have hav' : env.avail.contains (if o.pip2 then "pip2" else "pip3") = true := hpv ▸ hav
  have he : ({o with pipv := if o.pip2 then "pip2" else "pip3"} : Options) = o :=
    opts_pipv_eta o hpv
  refine ⟨?_, ?_, ?_⟩
  · intro s rest hshow hinp hc
    rw [mainRun]
    simp only [hav', not_true_eq_false, Bool.false_eq_true, if_false, he, hcfg, hname, hv]
    rw [if_pos hn]
    simp only [promptuninstall, hshow, promptinstall, readInput, hinp, hc, List.nil_append]
  · intro r s rest hshow hinp hc
    rw [mainRun]
    simp only [hav', not_true_eq_false, Bool.false_eq_true, if_false, he, hcfg, hname, hv]
    rw [if_pos hn]
    simp only [promptuninstall, hshow, readInput, hinp, hc]
  · intro r s1 s2 rest hshow hinp hc1 hc2
    rw [mainRun]
    simp only [hav', not_true_eq_false, Bool.false_eq_true, if_false, he, hcfg, hname, hv]
    rw [if_pos hn]
    simp only [promptuninstall, hshow, promptinstall, readInput, hinp, hc1, hc2]

/-- Claim C9, witness: a user answering `n` to the install prompt — exit
status 1, the declined prompt is the last effect, nothing is run. -/
theorem c9_witness :
    mainRun envDecline baseOpts =
      ([.prompted (installPrompt fsPkgTwo "./dist/pkg-2.0.tar.gz")], .exited 1) :=
  (c9_decline_aborts envDecline baseOpts "./dist/pkg-2.0.tar.gz" "pkg"
      rfl (by decide) rfl rfl ⟨"2.0", rfl⟩ (by decide)).1
    "n" [] rfl rfl rfl
